import Mathlib

/-!
Verification of the transcript-analysis pipeline: shallow embedding of the
segmenter (`chunk_transcript`), the insight deduplicator
(`deduplicate_insights`), the JSON-response cleaner and insight-generation
fallbacks of the insight engine, the FastAPI analysis cache, and the
`VideoAnalyzer` session-state operations, with theorems about each.
-/

set_option maxRecDepth 4000

namespace YTA

/-! ## Python string primitives

Lean's `String` functions are largely opaque to the kernel, so the Python
string methods the code relies on (`strip`, `lower`, `endswith`, `split`,
`in`) are embedded as structurally recursive functions over `List Char`. -/

/-- The whitespace class of Python `str.strip` and `str.split` (ASCII part). -/
def isPyWS (c : Char) : Bool :=
  c = ' ' || c = '\t' || c = '\n' || c = '\r' || c = '\x0b' || c = '\x0c'

/-- Python `str.strip()`: remove leading and trailing whitespace. -/
def pyStrip (s : String) : String :=
  String.mk (((s.toList.dropWhile isPyWS).reverse.dropWhile isPyWS).reverse)

/-- Python `str.lower()` (ASCII part). -/
def pyLower (s : String) : String :=
  String.mk (s.toList.map Char.toLower)

/-- Python `str.endswith(suffix)`. -/
def pyEndsWith (s suffix : String) : Bool :=
  suffix.toList.isSuffixOf s.toList

/-- Python `needle in hay` substring membership. -/
def pyContains (hay needle : String) : Bool :=
  hay.toList.tails.any (fun t => needle.toList.isPrefixOf t)

/-- Helper for `pySplitWS`: accumulate the current word (reversed) while
scanning, emitting a word at each whitespace run. -/
def pySplitWSAux : List Char → List Char → List (List Char)
  | [], acc => if acc.isEmpty then [] else [acc.reverse]
  | c :: rest, acc =>
    if isPyWS c then
      if acc.isEmpty then pySplitWSAux rest []
      else acc.reverse :: pySplitWSAux rest []
    else pySplitWSAux rest (c :: acc)

/-- Python `str.split()` with no argument: split on whitespace runs,
discarding empty words. -/
def pySplitWS (s : String) : List String :=
  (pySplitWSAux s.toList []).map String.mk

/-- Helper for `pySplitOn`: split at each non-overlapping occurrence of the
separator `s0 :: stail`, scanning left to right. The fuel argument (at least
the scanned list's length) keeps the recursion structural so that the kernel
can evaluate it; each step consumes at least one character. -/
def pySplitOnAux (s0 : Char) (stail : List Char) :
    Nat → List Char → List Char → List (List Char)
  | 0, l, acc => [(acc.reverse ++ l)]
  | _ + 1, [], acc => [acc.reverse]
  | fuel + 1, c :: rest, acc =>
    if c = s0 && stail.isPrefixOf rest then
      acc.reverse :: pySplitOnAux s0 stail fuel (rest.drop stail.length) []
    else
      pySplitOnAux s0 stail fuel rest (c :: acc)

/-- Python `str.split(sep)` with a nonempty separator string. -/
def pySplitOn (s : String) (sep : String) : List String :=
  match sep.toList with
  | [] => [s]
  | s0 :: stail =>
    (pySplitOnAux s0 stail s.toList.length s.toList []).map String.mk

/-! ## Data model: transcript segments and chunks (src/src/analysis_utils.py) -/

/-- One timestamped transcript segment: keys `text`, `start`, `duration` of the
Python segment dict. Float times are modelled as rationals. -/
structure TranscriptSegment where
  text : String
  start : ℚ
  duration : ℚ
deriving DecidableEq, Repr

/-- A chunk dict produced by `chunk_transcript`: space-joined text, start of
the first segment, accumulated duration, and the constituent segments. -/
structure Chunk where
  text : String
  start : ℚ
  duration : ℚ
  segments : List TranscriptSegment
deriving DecidableEq, Repr

/-- The fixed transition-phrase list of `_is_natural_break`. -/
def transition_phrases : List String :=
  ["however,", "moreover,", "furthermore,", "in addition,",
   "next,", "finally,", "consequently,", "therefore,"]

/-- Embedding of `_is_natural_break` (analysis_utils.py lines 82-101): the
stripped text ends with sentence-terminal punctuation, or its lower-cased
form ends with one of the transition phrases. -/
def _is_natural_break (text : String) : Bool :=
  (pyEndsWith (pyStrip text) "." || pyEndsWith (pyStrip text) "!"
      || pyEndsWith (pyStrip text) "?")
    || transition_phrases.any (fun phrase =>
        pyEndsWith (pyLower (pyStrip text)) phrase)

/-- Builds the chunk dict appended by `chunk_transcript` from the accumulated
segments and accumulated duration. -/
def mkChunk (cur : List TranscriptSegment) (dur : ℚ) : Chunk :=
  { text := String.intercalate " " (cur.map (fun s => s.text))
  , start := ((cur.head?).map (fun s => s.start)).getD 0
  , duration := dur
  , segments := cur }

/-- The loop of `chunk_transcript` (analysis_utils.py lines 24-49): the first
list is the remaining input, the second the pending `current_chunk`, the
rational the accumulated `current_duration`. After appending a segment the
chunk is closed when the size limit is reached, the accumulated duration
reaches 30 seconds, or the appended segment ends at a natural break; any
pending segments left at the end are emitted as a final chunk. -/
def chunkLoop (chunk_size : Nat) :
    List TranscriptSegment → List TranscriptSegment → ℚ → List Chunk
  | [], cur, dur => if cur.isEmpty then [] else [mkChunk cur dur]
  | seg :: rest, cur, dur =>
    if decide (chunk_size ≤ (cur ++ [seg]).length)
        || decide ((30 : ℚ) ≤ dur + seg.duration)
        || _is_natural_break seg.text then
      mkChunk (cur ++ [seg]) (dur + seg.duration) :: chunkLoop chunk_size rest [] 0
    else
      chunkLoop chunk_size rest (cur ++ [seg]) (dur + seg.duration)

/-- Embedding of `chunk_transcript` (analysis_utils.py lines 9-51). -/
def chunk_transcript (transcript : List TranscriptSegment) (chunk_size : Nat := 5) :
    List Chunk :=
  chunkLoop chunk_size transcript [] 0

/-- Concatenation, in chunk order, of the `segments` fields of a chunk list. -/
def joinSegments (chunks : List Chunk) : List TranscriptSegment :=
  (chunks.map Chunk.segments).flatten

theorem joinSegments_nil : joinSegments [] = [] := rfl

theorem joinSegments_cons (c : Chunk) (cs : List Chunk) :
    joinSegments (c :: cs) = c.segments ++ joinSegments cs := by
  simp [joinSegments]

theorem chunkLoop_joinSegments (n : Nat) (ts : List TranscriptSegment) :
    ∀ (cur : List TranscriptSegment) (dur : ℚ),
      joinSegments (chunkLoop n ts cur dur) = cur ++ ts := by
  induction ts with
  | nil =>
    intro cur dur
    by_cases h : cur = []
    · simp [chunkLoop, h, joinSegments]
    · have hne : cur.isEmpty = false := by
        simpa [List.isEmpty_iff] using h
      simp [chunkLoop, hne, joinSegments, mkChunk]
  | cons seg rest ih =>
    intro cur dur
    simp only [chunkLoop]
    by_cases h : (decide (n ≤ (cur ++ [seg]).length)
        || decide ((30 : ℚ) ≤ dur + seg.duration)
        || _is_natural_break seg.text) = true
    · rw [if_pos h, joinSegments_cons, ih]
      simp [mkChunk]
    · rw [if_neg h, ih]
      simp

/-- Claim C1: for every transcript and every chunk size, concatenating the
`segments` fields of the chunks returned by `chunk_transcript`, in chunk
order, yields exactly the input segment sequence: no segment is dropped,
duplicated, or reordered. -/
theorem chunk_transcript_complete (transcript : List TranscriptSegment)
    (chunk_size : Nat) :
    joinSegments (chunk_transcript transcript chunk_size) = transcript := by
  simpa using chunkLoop_joinSegments chunk_size transcript [] 0

/-! ## Segmenter boundary triggers (claim C6) -/

/-- The chunk-closing trigger as the specification states it: checked after
the segment `seg` is appended to the pending chunk `cur` holding accumulated
duration `dur` — the accumulated segment count reaches the per-chunk maximum,
the accumulated duration reaches 30 seconds, or the just-appended segment's
text ends at a natural break. -/
def closeTrigger (chunk_size : Nat) (cur : List TranscriptSegment) (dur : ℚ)
    (seg : TranscriptSegment) : Bool :=
  decide (chunk_size ≤ cur.length + 1)
    || decide ((30 : ℚ) ≤ dur + seg.duration)
    || _is_natural_break seg.text

/-- A transcript of five one-second segments whose text has no punctuation
and no transition phrase. -/
def fiveSegs : List TranscriptSegment :=
  [ { text := "welcome to the channel", start := 0, duration := 1 }
  , { text := "today we talk about", start := 1, duration := 1 }
  , { text := "transcripts and how to", start := 2, duration := 1 }
  , { text := "split them into chunks", start := 3, duration := 1 }
  , { text := "without any punctuation", start := 4, duration := 1 } ]

/-- Claim C6: the segmenter closes the pending chunk, checked after each
segment is appended, exactly when `closeTrigger` fires (count reaches the
per-chunk maximum, duration reaches 30 seconds, or natural break); remaining
segments at end of input are always emitted as a final partial chunk; and a
transcript of 5 one-second segments with no punctuation yields exactly one
chunk of 5 segments. -/
theorem chunk_transcript_triggers :
    (∀ (n : Nat) (seg : TranscriptSegment) (rest cur : List TranscriptSegment)
        (dur : ℚ),
      chunkLoop n (seg :: rest) cur dur =
        if closeTrigger n cur dur seg then
          mkChunk (cur ++ [seg]) (dur + seg.duration) :: chunkLoop n rest [] 0
        else
          chunkLoop n rest (cur ++ [seg]) (dur + seg.duration))
    ∧ (∀ (n : Nat) (cur : List TranscriptSegment) (dur : ℚ),
        cur ≠ [] → chunkLoop n [] cur dur = [mkChunk cur dur])
    ∧ chunk_transcript fiveSegs = [mkChunk fiveSegs 5] := by
  refine ⟨?_, ?_, ?_⟩
  · intro n seg rest cur dur
    simp [chunkLoop, closeTrigger, List.length_append]
  · intro n cur dur h
    have hne : cur.isEmpty = false := by
      simpa [List.isEmpty_iff] using h
    simp [chunkLoop, hne]
  · have b1 : _is_natural_break "welcome to the channel" = false := by decide
    have b2 : _is_natural_break "today we talk about" = false := by decide
    have b3 : _is_natural_break "transcripts and how to" = false := by decide
    have b4 : _is_natural_break "split them into chunks" = false := by decide
    have b5 : _is_natural_break "without any punctuation" = false := by decide
    simp only [chunk_transcript, fiveSegs, chunkLoop, b1, b2, b3, b4, b5,
      Bool.or_false]
    norm_num [mkChunk]

/-- Witness for the hypothesis of `chunk_transcript_triggers`: a nonempty
pending chunk at end of input is flushed as a final chunk. -/
theorem chunk_transcript_triggers_witness :
    chunkLoop 7 [] fiveSegs 5 = [mkChunk fiveSegs 5] :=
  chunk_transcript_triggers.2.1 7 fiveSegs 5 (by simp [fiveSegs])

/-! ## Insight deduplication (src/src/analysis_utils.py lines 121-166) -/

/-- An insight record; the deduplicator reads only the `explanation` field. -/
structure Insight where
  title : String
  explanation : String
deriving DecidableEq, Repr

/-- The word list of `text.lower().split()` in `_calculate_similarity`. -/
def wordsOf (text : String) : List String :=
  pySplitWS (pyLower text)

/-- The word set `set(text.lower().split())` of `_calculate_similarity`. -/
def wordSetOf (text : String) : Finset String :=
  (wordsOf text).toFinset

/-- Embedding of `_calculate_similarity` (analysis_utils.py lines 147-166):
word-overlap similarity `intersection / union if union > 0 else 0`. -/
def _calculate_similarity (text1 text2 : String) : ℚ :=
  let words1 := wordSetOf text1
  let words2 := wordSetOf text2
  let intersection := (words1 ∩ words2).card
  let union := (words1 ∪ words2).card
  if 0 < union then (intersection : ℚ) / (union : ℚ) else 0

/-- One iteration of the `deduplicate_insights` loop: the candidate is kept
unless some already-kept insight's explanation is similar above threshold. -/
def dedupeStep (similarity_threshold : ℚ) (unique_insights : List Insight)
    (insight : Insight) : List Insight :=
  if unique_insights.any (fun u =>
      decide (similarity_threshold <
        _calculate_similarity insight.explanation u.explanation)) then
    unique_insights
  else
    unique_insights ++ [insight]

/-- Embedding of `deduplicate_insights` (analysis_utils.py lines 121-145). -/
def deduplicate_insights (insights : List Insight)
    (similarity_threshold : ℚ := 8 / 10) : List Insight :=
  insights.foldl (dedupeStep similarity_threshold) []

/-- Specification-level duplicate test: the candidate's similarity with some
already-accepted insight strictly exceeds the threshold. -/
def isDupSpec (threshold : ℚ) (accepted : List Insight) (x : Insight) : Prop :=
  ∃ u ∈ accepted, threshold < _calculate_similarity x.explanation u.explanation

instance (threshold : ℚ) (accepted : List Insight) (x : Insight) :
    Decidable (isDupSpec threshold accepted x) := by
  unfold isDupSpec; infer_instance

/-- Specification-level deduplication, written from the claim: an
order-preserving first-occurrence-wins linear scan where each candidate is
rejected if and only if `isDupSpec` holds against the accepted prefix. -/
def dedupeSpec (threshold : ℚ) (accepted : List Insight) :
    List Insight → List Insight
  | [] => []
  | x :: rest =>
    if isDupSpec threshold accepted x then dedupeSpec threshold accepted rest
    else x :: dedupeSpec threshold (accepted ++ [x]) rest

theorem any_eq_isDupSpec (threshold : ℚ) (accepted : List Insight)
    (x : Insight) :
    (accepted.any (fun u =>
        decide (threshold <
          _calculate_similarity x.explanation u.explanation)) = true)
      ↔ isDupSpec threshold accepted x := by
  simp [isDupSpec, List.any_eq_true]

theorem foldl_dedupeStep_eq (threshold : ℚ) (insights : List Insight) :
    ∀ accepted : List Insight,
      insights.foldl (dedupeStep threshold) accepted =
        accepted ++ dedupeSpec threshold accepted insights := by
  induction insights with
  | nil => intro accepted; simp [dedupeSpec]
  | cons x rest ih =>
    intro accepted
    by_cases h : isDupSpec threshold accepted x
    · have hb := (any_eq_isDupSpec threshold accepted x).mpr h
      simp only [List.foldl_cons, dedupeStep, hb, if_true, dedupeSpec, if_pos h]
      exact ih accepted
    · have hb : (accepted.any (fun u =>
          decide (threshold <
            _calculate_similarity x.explanation u.explanation))) = false := by
        rw [Bool.eq_false_iff]
        intro hc
        exact h ((any_eq_isDupSpec threshold accepted x).mp hc)
      simp only [List.foldl_cons, dedupeStep, hb, Bool.false_eq_true, if_false,
        dedupeSpec, if_neg h]
      rw [ih (accepted ++ [x])]
      simp

/-- Claim C2: `deduplicate_insights` is precisely the order-preserving
first-occurrence-wins linear scan `dedupeSpec` (a candidate is rejected iff
its similarity with some already-accepted insight strictly exceeds the
threshold), and the similarity used is the Jaccard index over the sets of
lower-cased whitespace-tokenized words of the two explanations, defined as 0
when the union is empty. -/
theorem deduplicate_insights_spec :
    (∀ (insights : List Insight) (threshold : ℚ),
      deduplicate_insights insights threshold = dedupeSpec threshold [] insights)
    ∧ (∀ text1 text2 : String,
      _calculate_similarity text1 text2 =
        if (wordSetOf text1 ∪ wordSetOf text2).Nonempty then
          ((wordSetOf text1 ∩ wordSetOf text2).card : ℚ)
            / ((wordSetOf text1 ∪ wordSetOf text2).card : ℚ)
        else 0) := by
  constructor
  · intro insights threshold
    simpa using foldl_dedupeStep_eq threshold insights []
  · intro text1 text2
    unfold _calculate_similarity
    rcases (wordSetOf text1 ∪ wordSetOf text2).eq_empty_or_nonempty with h | h
    · simp [h]
    · simp [h, Finset.card_pos.mpr h, Finset.Nonempty.ne_empty h]

/-- Soundness predicate: scanning the list from the accepted prefix
`accepted`, no element is a duplicate of the elements before it. -/
def dedupeSound (threshold : ℚ) (accepted : List Insight) :
    List Insight → Prop
  | [] => True
  | x :: rest =>
    ¬ isDupSpec threshold accepted x
      ∧ dedupeSound threshold (accepted ++ [x]) rest

theorem dedupeSpec_sound (threshold : ℚ) (insights : List Insight) :
    ∀ accepted : List Insight,
      dedupeSound threshold accepted (dedupeSpec threshold accepted insights) := by
  induction insights with
  | nil => intro accepted; trivial
  | cons x rest ih =>
    intro accepted
    by_cases h : isDupSpec threshold accepted x
    · simp only [dedupeSpec, if_pos h]
      exact ih accepted
    · simp only [dedupeSpec, if_neg h, dedupeSound]
      exact ⟨h, ih (accepted ++ [x])⟩

theorem dedupeSpec_of_sound (threshold : ℚ) (insights : List Insight) :
    ∀ accepted : List Insight,
      dedupeSound threshold accepted insights →
        dedupeSpec threshold accepted insights = insights := by
  induction insights with
  | nil => intro accepted _; rfl
  | cons x rest ih =>
    intro accepted h
    obtain ⟨h1, h2⟩ := h
    simp only [dedupeSpec, if_neg h1]
    rw [ih (accepted ++ [x]) h2]

/-- Claim C3: deduplication is idempotent — for every insight list and every
threshold, running `deduplicate_insights` on its own output returns that
output unchanged. -/
theorem deduplicate_insights_idempotent (insights : List Insight)
    (threshold : ℚ) :
    deduplicate_insights (deduplicate_insights insights threshold) threshold =
      deduplicate_insights insights threshold := by
  have h1 : ∀ l : List Insight,
      deduplicate_insights l threshold = dedupeSpec threshold [] l := by
    intro l
    simpa using foldl_dedupeStep_eq threshold l []
  rw [h1, h1]
  exact dedupeSpec_of_sound threshold _ []
    (dedupeSpec_sound threshold insights [])

/-! ## The FastAPI analysis cache (src/api.py)

`analysis_cache` maps a raw request URL to a dict whose recognized keys are
`metadata`, `transcript`, `sentiment`, `keyPoints`.  A dict entry maps each
present key to a value that may itself be Python `None` (outer `Option` is
key presence, inner `Option` is the stored value). The external work done by
the endpoints (`analyzer.get_transcript`, `analyzer.analyze_sentiment`,
`analyzer.extract_key_points`) is abstracted into an oracle, and every call
to one of these is recorded as an effect. -/

/-- The recognized cache field names of `analysis_cache` entries. -/
inductive Field
  | metadata
  | transcript
  | sentiment
  | keyPoints
deriving DecidableEq, Repr

/-- The recognized field names in a fixed order, used for key counting. -/
def fieldList : List Field :=
  [Field.metadata, Field.transcript, Field.sentiment, Field.keyPoints]

/-- A cache entry: a dict from field names to possibly-`None` values. -/
abbrev Entry (V : Type) := Field → Option (Option V)

/-- The whole `analysis_cache`: raw URL string to entry, absent if the URL
was never inserted. -/
abbrev CacheSt (V : Type) := String → Option (Entry V)

/-- External computations invoked by the endpoints. -/
structure ApiOracle (V : Type) where
  fetchMeta : String → V
  fetchTrans : String → V
  sentOf : String → V
  kpOf : String → V

/-- The `AnalysisResponse` model of api.py (all fields default `None`). -/
structure AnalysisResponse (V : Type) where
  metadata : Option V
  transcript : Option V
  sentiment : Option V
  keyPoints : Option V
deriving DecidableEq, Repr

/-- Effects: which expensive sub-operation an endpoint invoked. -/
inductive Eff
  | fetch
  | sent
  | kp
deriving DecidableEq, Repr

def emptyEntry (V : Type) : Entry V := fun _ => none

def setField {V : Type} (e : Entry V) (f : Field) (v : Option V) : Entry V :=
  fun g => if g = f then some v else e g

def setCache {V : Type} (st : CacheSt V) (url : String) (e : Entry V) :
    CacheSt V :=
  fun u => if u = url then some e else st u

/-- `len(analysis_cache[url].keys())`: the number of distinct populated
(present) fields of an entry. -/
def entryKeys {V : Type} (e : Entry V) : Nat :=
  (fieldList.filter (fun f => (e f).isSome)).length

/-- Embedding of the `quick_analysis` endpoint (api.py lines 90-118): on a
cache hit return the entry's `metadata`/`transcript` values (absent keys give
`None`) with no fetch; on a miss fetch, store both fields, and return them. -/
def quick_analysis {V : Type} (o : ApiOracle V) (url : String)
    (st : CacheSt V) : (Option V × Option V) × CacheSt V × List Eff :=
  match st url with
  | some e => (((e Field.metadata).getD none, (e Field.transcript).getD none), st, [])
  | none =>
    let m := o.fetchMeta url
    let t := o.fetchTrans url
    let e := setField (setField (emptyEntry V) Field.metadata (some m))
        Field.transcript (some t)
    ((some m, some t), setCache st url e, [Eff.fetch])

/-- Embedding of the `analyze_sentiment` endpoint (api.py lines 120-139):
return the cached `sentiment` value if the key is present, otherwise compute
it, merge it into the entry (creating the entry if absent), and return it. -/
def analyze_sentiment_ep {V : Type} (o : ApiOracle V) (url : String)
    (st : CacheSt V) : Option V × CacheSt V × List Eff :=
  match st url with
  | some e =>
    match e Field.sentiment with
    | some v => (v, st, [])
    | none =>
      let s := o.sentOf url
      (some s, setCache st url (setField e Field.sentiment (some s)),
        [Eff.sent])
  | none =>
    let s := o.sentOf url
    (some s,
      setCache st url (setField (emptyEntry V) Field.sentiment (some s)),
      [Eff.sent])

/-- Embedding of the `analyze_keypoints` endpoint (api.py lines 141-160). -/
def analyze_keypoints_ep {V : Type} (o : ApiOracle V) (url : String)
    (st : CacheSt V) : Option V × CacheSt V × List Eff :=
  match st url with
  | some e =>
    match e Field.keyPoints with
    | some v => (v, st, [])
    | none =>
      let k := o.kpOf url
      (some k, setCache st url (setField e Field.keyPoints (some k)),
        [Eff.kp])
  | none =>
    let k := o.kpOf url
    (some k,
      setCache st url (setField (emptyEntry V) Field.keyPoints (some k)),
      [Eff.kp])

/-- The response built from a whole cached entry,
`AnalysisResponse(**analysis_cache[url])`. -/
def respOfEntry {V : Type} (e : Entry V) : AnalysisResponse V :=
  { metadata := (e Field.metadata).getD none
  , transcript := (e Field.transcript).getD none
  , sentiment := (e Field.sentiment).getD none
  , keyPoints := (e Field.keyPoints).getD none }

/-- The non-short-circuit body of the `analyze` endpoint: run quick,
sentiment and key-points analyses, combine, and overwrite the cache entry
with the combined four-field result. -/
def analyze_video_go {V : Type} (o : ApiOracle V) (url : String)
    (st : CacheSt V) : AnalysisResponse V × CacheSt V × List Eff :=
  let q := quick_analysis o url st
  let s := analyze_sentiment_ep o url q.2.1
  let k := analyze_keypoints_ep o url s.2.1
  let final : Entry V := fun f =>
    match f with
    | Field.metadata => some q.1.1
    | Field.transcript => some q.1.2
    | Field.sentiment => some s.1
    | Field.keyPoints => some k.1
  ({ metadata := q.1.1, transcript := q.1.2, sentiment := s.1, keyPoints := k.1 },
    setCache k.2.1 url final, q.2.2 ++ s.2.2 ++ k.2.2)

/-- Embedding of the `analyze` endpoint (api.py lines 163-195): if the URL
has a cache entry with at least 4 keys, return the whole cached entry with
no sub-operation; otherwise run the full fan-out. -/
def analyze_video_ep {V : Type} (o : ApiOracle V) (url : String)
    (st : CacheSt V) : AnalysisResponse V × CacheSt V × List Eff :=
  match st url with
  | some e =>
    if 4 ≤ entryKeys e then (respOfEntry e, st, [])
    else analyze_video_go o url st
  | none => analyze_video_go o url st

/-- The completeness predicate of the spec: the URL has an entry whose number
of distinct populated fields reaches the threshold 4. -/
def is_complete {V : Type} (st : CacheSt V) (url : String) : Bool :=
  match st url with
  | some e => decide (4 ≤ entryKeys e)
  | none => false

/-- A cache operation: one endpoint invocation with its request URL. -/
inductive Op
  | quick (url : String)
  | sent (url : String)
  | keyp (url : String)
  | full (url : String)

/-- The request URL of an operation. -/
def opUrl : Op → String
  | Op.quick u => u
  | Op.sent u => u
  | Op.keyp u => u
  | Op.full u => u

/-- The cache state after one endpoint invocation. -/
def applyOp {V : Type} (o : ApiOracle V) : Op → CacheSt V → CacheSt V
  | Op.quick u, st => (quick_analysis o u st).2.1
  | Op.sent u, st => (analyze_sentiment_ep o u st).2.1
  | Op.keyp u, st => (analyze_keypoints_ep o u st).2.1
  | Op.full u, st => (analyze_video_ep o u st).2.1

/-- The cache state after a sequence of endpoint invocations. -/
def runOps {V : Type} (o : ApiOracle V) (ops : List Op) (st : CacheSt V) :
    CacheSt V :=
  ops.foldl (fun s op => applyOp o op s) st

/-- Whether field `f` is populated (its key present) in the entry for `url`. -/
def populated {V : Type} (st : CacheSt V) (url : String) (f : Field) : Bool :=
  match st url with
  | some e => (e f).isSome
  | none => false

/-! ## Cache lemmas: locality, monotonicity, completeness (claims C4, C5) -/

theorem populated_setCache {V : Type} (st : CacheSt V) (u : String)
    (e : Entry V) (url : String) (f : Field) :
    populated (setCache st u e) url f =
      if url = u then (e f).isSome else populated st url f := by
  by_cases h : url = u <;> simp [populated, setCache, h]

theorem setField_isSome {V : Type} (e : Entry V) (f' : Field) (v : Option V)
    (g : Field) :
    ((setField e f' v) g).isSome = if g = f' then true else (e g).isSome := by
  by_cases h : g = f' <;> simp [setField, h]

theorem quick_mono {V : Type} (o : ApiOracle V) (u : String) (st : CacheSt V)
    (url : String) (f : Field) (h : populated st url f = true) :
    populated ((quick_analysis o u st).2.1) url f = true := by
  unfold quick_analysis
  cases hu : st u with
  | some e => simpa using h
  | none =>
    simp only []
    rw [populated_setCache]
    by_cases he : url = u
    · subst he
      simp [populated, hu] at h
    · simpa [he] using h

theorem sent_mono {V : Type} (o : ApiOracle V) (u : String) (st : CacheSt V)
    (url : String) (f : Field) (h : populated st url f = true) :
    populated ((analyze_sentiment_ep o u st).2.1) url f = true := by
  unfold analyze_sentiment_ep
  cases hu : st u with
  | some e =>
    cases hs : e Field.sentiment with
    | some v => simpa [hs] using h
    | none =>
      simp only [hs]
      rw [populated_setCache]
      by_cases he : url = u
      · subst he
        rw [if_pos rfl, setField_isSome]
        by_cases hf : f = Field.sentiment
        · simp [hf]
        · simp only [populated, hu] at h
          simp [hf, h]
      · simpa [he] using h
  | none =>
    simp only []
    rw [populated_setCache]
    by_cases he : url = u
    · subst he
      simp [populated, hu] at h
    · simpa [he] using h

theorem kp_mono {V : Type} (o : ApiOracle V) (u : String) (st : CacheSt V)
    (url : String) (f : Field) (h : populated st url f = true) :
    populated ((analyze_keypoints_ep o u st).2.1) url f = true := by
  unfold analyze_keypoints_ep
  cases hu : st u with
  | some e =>
    cases hs : e Field.keyPoints with
    | some v => simpa [hs] using h
    | none =>
      simp only [hs]
      rw [populated_setCache]
      by_cases he : url = u
      · subst he
        rw [if_pos rfl, setField_isSome]
        by_cases hf : f = Field.keyPoints
        · simp [hf]
        · simp only [populated, hu] at h
          simp [hf, h]
      · simpa [he] using h
  | none =>
    simp only []
    rw [populated_setCache]
    by_cases he : url = u
    · subst he
      simp [populated, hu] at h
    · simpa [he] using h

theorem go_mono {V : Type} (o : ApiOracle V) (u : String) (st : CacheSt V)
    (url : String) (f : Field) (h : populated st url f = true) :
    populated ((analyze_video_go o u st).2.1) url f = true := by
  unfold analyze_video_go
  simp only []
  rw [populated_setCache]
  by_cases he : url = u
  · rw [if_pos he]
    cases f <;> simp
  · rw [if_neg he]
    exact kp_mono o u _ url f (sent_mono o u _ url f (quick_mono o u st url f h))

theorem full_mono {V : Type} (o : ApiOracle V) (u : String) (st : CacheSt V)
    (url : String) (f : Field) (h : populated st url f = true) :
    populated ((analyze_video_ep o u st).2.1) url f = true := by
  unfold analyze_video_ep
  cases hu : st u with
  | some e =>
    by_cases hc : 4 ≤ entryKeys e
    · simpa [hc] using h
    · simpa [hc] using go_mono o u st url f h
  | none => exact go_mono o u st url f h

theorem op_mono {V : Type} (o : ApiOracle V) (op : Op) (st : CacheSt V)
    (url : String) (f : Field) (h : populated st url f = true) :
    populated (applyOp o op st) url f = true := by
  cases op with
  | quick u => exact quick_mono o u st url f h
  | sent u => exact sent_mono o u st url f h
  | keyp u => exact kp_mono o u st url f h
  | full u => exact full_mono o u st url f h

theorem runOps_mono {V : Type} (o : ApiOracle V) (ops : List Op)
    (st : CacheSt V) (url : String) (f : Field)
    (h : populated st url f = true) :
    populated (runOps o ops st) url f = true := by
  induction ops generalizing st with
  | nil => simpa [runOps] using h
  | cons op rest ih =>
    have hstep := op_mono o op st url f h
    simpa [runOps] using ih (applyOp o op st) hstep

/-- The populated-field count of the entry for `url`, phrased through
`populated`. -/
def popCount {V : Type} (st : CacheSt V) (url : String) : Nat :=
  (fieldList.filter (fun f => populated st url f)).length

theorem is_complete_popCount {V : Type} (st : CacheSt V) (url : String) :
    is_complete st url = decide (4 ≤ popCount st url) := by
  unfold is_complete popCount populated entryKeys
  cases h : st url with
  | some e => simp
  | none => simp

theorem filter_length_mono {α : Type} (l : List α) (p q : α → Bool)
    (h : ∀ a, p a = true → q a = true) :
    (l.filter p).length ≤ (l.filter q).length := by
  induction l with
  | nil => simp
  | cons x xs ih =>
    by_cases hp : p x = true
    · have hq := h x hp
      simp only [List.filter_cons, hp, hq, if_true, List.length_cons]
      exact Nat.succ_le_succ ih
    · have hp' : p x = false := by simpa using hp
      by_cases hq : q x = true
      · simp only [List.filter_cons, hp', hq, Bool.false_eq_true, if_false,
          if_true, List.length_cons]
        exact Nat.le_succ_of_le ih
      · have hq' : q x = false := by simpa using hq
        simpa [List.filter_cons, hp', hq'] using ih

/-- Claim C5: across every sequence of endpoint invocations, the set of
populated fields of any URL's cache entry only grows (a populated field
stays populated), and in particular a complete entry stays complete. -/
theorem cache_monotone {V : Type} (o : ApiOracle V) (ops : List Op)
    (st : CacheSt V) (url : String) (f : Field) :
    (populated st url f = true → populated (runOps o ops st) url f = true)
    ∧ (is_complete st url = true → is_complete (runOps o ops st) url = true) := by
  constructor
  · exact runOps_mono o ops st url f
  · intro h
    rw [is_complete_popCount] at h ⊢
    rw [decide_eq_true_eq] at h ⊢
    calc 4 ≤ popCount st url := h
      _ ≤ popCount (runOps o ops st) url :=
        filter_length_mono fieldList _ _
          (fun g hg => runOps_mono o ops st url g hg)

/-- A concrete oracle over `Nat` values, for witnesses. -/
def oNat : ApiOracle Nat :=
  { fetchMeta := fun _ => 1, fetchTrans := fun _ => 2
  , sentOf := fun _ => 3, kpOf := fun _ => 4 }

/-- The empty cache. -/
def emptyCache : CacheSt Nat := fun _ => none

/-- A fully populated entry. -/
def entryFull : Entry Nat := fun _ => some (some 0)

/-- A cache holding a complete entry for URL "vid". -/
def stComplete : CacheSt Nat := setCache emptyCache "vid" entryFull

/-- Witness for `cache_monotone`: after a concrete operation sequence the
populated field stays populated and the complete entry stays complete. -/
theorem cache_monotone_witness :
    populated (runOps oNat [Op.sent "vid", Op.full "other"] stComplete)
        "vid" Field.metadata = true
    ∧ is_complete (runOps oNat [Op.sent "vid", Op.full "other"] stComplete)
        "vid" = true :=
  ⟨(cache_monotone oNat [Op.sent "vid", Op.full "other"] stComplete
      "vid" Field.metadata).1 (by decide),
   (cache_monotone oNat [Op.sent "vid", Op.full "other"] stComplete
      "vid" Field.metadata).2 (by decide)⟩

/-- Claim C4: the completeness predicate holds iff the URL's entry has at
least 4 distinct populated fields, and when it holds the full-analysis
endpoint returns the whole cached entry unchanged with no sub-operation
invoked (empty effect list, cache state untouched). -/
theorem analyze_video_complete {V : Type} (o : ApiOracle V) (st : CacheSt V)
    (url : String) :
    (is_complete st url = true ↔ ∃ e, st url = some e ∧ 4 ≤ entryKeys e)
    ∧ (∀ e : Entry V, st url = some e → 4 ≤ entryKeys e →
        analyze_video_ep o url st = (respOfEntry e, st, [])) := by
  constructor
  · unfold is_complete
    cases h : st url with
    | some e => simp
    | none => simp
  · intro e he h4
    unfold analyze_video_ep
    rw [he]
    simp [h4]

/-- Witness for `analyze_video_complete`: on a concrete complete cache the
full-analysis endpoint short-circuits. -/
theorem analyze_video_complete_witness :
    analyze_video_ep oNat "vid" stComplete =
      (respOfEntry entryFull, stComplete, []) :=
  (analyze_video_complete oNat stComplete "vid").2 entryFull
    (by simp [stComplete, setCache, emptyCache]) (by decide)

/-! ## The insight engine's response cleaning and parse fallbacks
(src/src/insight_engine.py)

`_clean_json_response` strips markdown code-block wrappers (the regex
substitutions `re.sub` of the patterns three-backticks-`json` plus trailing
whitespace and bare three-backticks plus trailing whitespace), then keeps
the slice between the first `[` and the last `]` when both exist in that
order, then strips outer whitespace.  `json.loads` is abstracted as a
`parse` function parameter; the LLM chain invocation as an `llm` function
parameter. -/

/-- The backtick character (written by code point to keep it out of
character-literal position). -/
def btick : Char := Char.ofNat 96

/-- Scanner for `removeTagWS`; the fuel argument (at least the scanned
list's length) keeps the recursion structural so that the kernel can
evaluate it; each step consumes at least one character. -/
def removeTagWSAux (c0 : Char) (ctag : List Char) :
    Nat → List Char → List Char
  | 0, l => l
  | _ + 1, [] => []
  | fuel + 1, c :: rest =>
    if c = c0 && ctag.isPrefixOf rest then
      removeTagWSAux c0 ctag fuel ((rest.drop ctag.length).dropWhile isPyWS)
    else
      c :: removeTagWSAux c0 ctag fuel rest

/-- Removes every left-to-right non-overlapping occurrence of the pattern
`c0 :: ctag` followed by greedy whitespace, as Python
`re.sub(pattern + backslash-s-star, empty, text)` does. -/
def removeTagWS (c0 : Char) (ctag : List Char) (l : List Char) : List Char :=
  removeTagWSAux c0 ctag l.length l

/-- Python `s.find(c)`: index of the first occurrence of a character. -/
def firstIdx (c : Char) (l : List Char) : Option Nat :=
  l.findIdx? (fun x => x = c)

/-- Python `s.rfind(c)`: index of the last occurrence of a character. -/
def lastIdx (c : Char) (l : List Char) : Option Nat :=
  match (l.reverse.findIdx? (fun x => x = c)) with
  | some i => some (l.length - 1 - i)
  | none => none

/-- Embedding of `_clean_json_response` (insight_engine.py lines 114-127). -/
def _clean_json_response (response : String) : String :=
  let l1 := removeTagWS btick ([btick, btick] ++ "json".toList) response.toList
  let l2 := removeTagWS btick [btick, btick] l1
  let l3 :=
    match firstIdx '[' l2, lastIdx ']' l2 with
    | some s, some e => if s < e + 1 then (l2.drop s).take (e + 1 - s) else l2
    | some _, none => l2
    | none, _ => l2
  String.mk ((l3.dropWhile isPyWS).reverse.dropWhile isPyWS |>.reverse)

/-- The generic insight record returned by `generate_insights`. -/
structure InsightG where
  title : String
  explanation : String
  importance : String
  context : String
deriving DecidableEq, Repr

/-- The golden-nugget record of `analyze_transcript`. -/
structure Nugget where
  title : String
  explanation : String
  relevance : String
  timestamp : String
deriving DecidableEq, Repr

/-- The placeholder insight substituted by `generate_insights` when parsing
fails (insight_engine.py lines 324-331). -/
def placeholder_insight : InsightG :=
  { title := "Transcript Analysis"
  , explanation :=
      "The transcript has been processed but insights could not be structured properly."
  , importance := "Further analysis may be needed."
  , context := "Full transcript available in storage." }

/-- The space-joined full text of a transcript,
`" ".join(segment['text'] for segment in transcript)`. -/
def fullTextOf (transcript : List TranscriptSegment) : String :=
  String.intercalate " " (transcript.map (fun s => s.text))

/-- Embedding of `generate_insights` (insight_engine.py lines 276-331) with
the LLM chain and `json.loads` abstracted: clean the raw response, parse it,
and on parse failure return the single placeholder insight instead of
raising. -/
def generate_insights (llm : String → String)
    (parse : String → Option (List InsightG))
    (transcript : List TranscriptSegment) : List InsightG :=
  match parse (_clean_json_response (llm (fullTextOf transcript))) with
  | some insights => insights
  | none => [placeholder_insight]

/-- Embedding of the golden-nugget extraction of `analyze_transcript`
(insight_engine.py lines 156-166): clean the raw response, parse it, and on
parse failure set the nugget list to the empty list. -/
def analyze_transcript_nuggets (llm : String → String)
    (parse : String → Option (List Nugget))
    (transcript : List TranscriptSegment) : List Nugget :=
  match parse (_clean_json_response (llm (fullTextOf transcript))) with
  | some nuggets => nuggets
  | none => []

/-! ## Claim C8: malformed-output handling -/

/-- A constant stand-in for an LLM chain returning unstructured prose. -/
def llmBad : String → String := fun _ => "unstructured prose"

/-- A parse stand-in that always fails (no well-formed insight list). -/
def parseFailG : String → Option (List InsightG) := fun _ => none

/-- A parse stand-in that always fails, at nugget type. -/
def parseFailN : String → Option (List Nugget) := fun _ => none

/-- Counterexample to claim C8 as stated: in `analyze_transcript` the
golden-nugget extraction, on continued parse failure, substitutes the empty
list — not a single well-formed placeholder insight. -/
theorem malformed_output_counterexample :
    analyze_transcript_nuggets llmBad parseFailN [] = []
    ∧ (analyze_transcript_nuggets llmBad parseFailN []).length ≠ 1 := by
  constructor
  · rfl
  · intro h
    simp [analyze_transcript_nuggets, llmBad, parseFailN] at h

/-- Claim C8 (amended): both insight-parsing paths first apply best-effort
text extraction (`_clean_json_response`: strip markdown code-block wrappers,
locate the outermost bracket delimiters) before parsing, and neither raises
on continued failure; `generate_insights` substitutes the single well-formed
placeholder insight, while `analyze_transcript`'s nugget extraction
substitutes the empty list. The two closed equations exhibit the wrapper
stripping and delimiter location concretely. -/
theorem malformed_output_handling :
    (∀ (llm : String → String) (parse : String → Option (List InsightG))
        (ts : List TranscriptSegment),
      parse (_clean_json_response (llm (fullTextOf ts))) = none →
        generate_insights llm parse ts = [placeholder_insight])
    ∧ (∀ (llm : String → String) (parse : String → Option (List Nugget))
        (ts : List TranscriptSegment),
      parse (_clean_json_response (llm (fullTextOf ts))) = none →
        analyze_transcript_nuggets llm parse ts = [])
    ∧ _clean_json_response "```json\n[1, 2]\n```" = "[1, 2]"
    ∧ _clean_json_response "noise [1] trailing" = "[1]" := by
  refine ⟨?_, ?_, by decide, by decide⟩
  · intro llm parse ts h
    simp [generate_insights, h]
  · intro llm parse ts h
    simp [analyze_transcript_nuggets, h]

/-- Witness for `malformed_output_handling`: both parse-failure hypotheses
discharged at concrete inputs. -/
theorem malformed_output_handling_witness :
    generate_insights llmBad parseFailG [] = [placeholder_insight]
    ∧ analyze_transcript_nuggets llmBad parseFailN [] = [] :=
  ⟨malformed_output_handling.1 llmBad parseFailG [] rfl,
   malformed_output_handling.2.1 llmBad parseFailN [] rfl⟩

/-! ## URL canonicalization (src/src/transcript_service.py) and cache keying
(claim C7) -/

/-- Embedding of `YouTubeService.extract_video_id` (transcript_service.py
lines 20-27): strip a `youtu.be` short link to its last path component, pull
the `v=` parameter out of a `youtube.com` URL, otherwise assume the input is
already a video ID. -/
def extract_video_id (url : String) : String :=
  if pyContains url "youtu.be" then
    (pySplitOn url "/").getLastD ""
  else if pyContains url "youtube.com" then
    if pyContains url "v=" then
      (pySplitOn ((pySplitOn url "v=").getD 1 "") "&").headD ""
    else url
  else url

/-- A full watch URL and the bare video ID of the same video. -/
def urlFull : String := "https://www.youtube.com/watch?v=dQw4w9WgXcQ"

/-- The bare video ID form of `urlFull`. -/
def urlBare : String := "dQw4w9WgXcQ"

/-- Counterexample to claim C7: the two identifier forms canonicalize to the
same video ID, yet after `quick_analysis` populates the cache under the full
URL the entry is not found under the bare ID — the endpoint keys the cache
on the raw input string, so querying the bare ID triggers a fresh fetch. -/
theorem cache_key_counterexample :
    extract_video_id urlFull = extract_video_id urlBare
    ∧ urlFull ≠ urlBare
    ∧ populated ((quick_analysis oNat urlFull emptyCache).2.1) urlFull
        Field.transcript = true
    ∧ populated ((quick_analysis oNat urlFull emptyCache).2.1) urlBare
        Field.transcript = false
    ∧ (quick_analysis oNat urlBare
        ((quick_analysis oNat urlFull emptyCache).2.1)).2.2 = [Eff.fetch] := by
  refine ⟨by decide, by decide, by decide, by decide, by decide⟩

theorem quick_loc {V : Type} (o : ApiOracle V) (u : String) (st : CacheSt V)
    (u' : String) (h : u ≠ u') :
    (quick_analysis o u st).2.1 u' = st u' := by
  unfold quick_analysis
  cases hu : st u with
  | some e => rfl
  | none => simp [setCache, Ne.symm h]

theorem sent_loc {V : Type} (o : ApiOracle V) (u : String) (st : CacheSt V)
    (u' : String) (h : u ≠ u') :
    (analyze_sentiment_ep o u st).2.1 u' = st u' := by
  unfold analyze_sentiment_ep
  cases hu : st u with
  | some e =>
    cases hs : e Field.sentiment with
    | some v => simp [hs]
    | none => simp [hs, setCache, Ne.symm h]
  | none => simp [setCache, Ne.symm h]

theorem kp_loc {V : Type} (o : ApiOracle V) (u : String) (st : CacheSt V)
    (u' : String) (h : u ≠ u') :
    (analyze_keypoints_ep o u st).2.1 u' = st u' := by
  unfold analyze_keypoints_ep
  cases hu : st u with
  | some e =>
    cases hs : e Field.keyPoints with
    | some v => simp [hs]
    | none => simp [hs, setCache, Ne.symm h]
  | none => simp [setCache, Ne.symm h]

theorem go_loc {V : Type} (o : ApiOracle V) (u : String) (st : CacheSt V)
    (u' : String) (h : u ≠ u') :
    (analyze_video_go o u st).2.1 u' = st u' := by
  unfold analyze_video_go
  simp only []
  rw [setCache, if_neg (fun hc => h hc.symm)]
  rw [kp_loc o u _ u' h, sent_loc o u _ u' h, quick_loc o u st u' h]

theorem full_loc {V : Type} (o : ApiOracle V) (u : String) (st : CacheSt V)
    (u' : String) (h : u ≠ u') :
    (analyze_video_ep o u st).2.1 u' = st u' := by
  unfold analyze_video_ep
  cases hu : st u with
  | some e =>
    by_cases hc : 4 ≤ entryKeys e
    · simp [hc]
    · simpa [hc] using go_loc o u st u' h
  | none => exact go_loc o u st u' h

theorem op_loc {V : Type} (o : ApiOracle V) (op : Op) (st : CacheSt V)
    (u' : String) (h : opUrl op ≠ u') : applyOp o op st u' = st u' := by
  cases op with
  | quick u => exact quick_loc o u st u' h
  | sent u => exact sent_loc o u st u' h
  | keyp u => exact kp_loc o u st u' h
  | full u => exact full_loc o u st u' h

/-! ## The VideoAnalyzer session (src/src/main.py)

`VideoAnalyzer` holds mutable session state: `current_video_data` (the
loaded transcript), `current_video_metadata`, and a private `_cache` keyed
on the raw `video_url` whose entries hold `transcript` and `metadata` keys.
External collaborators (`youtube_service.get_video_data`, the chat-chain
invocation) are abstracted into an oracle; invoking one is recorded as an
effect. `VideoInsightEngine` (src/src/insight_engine.py) defines no
`analyze_sentiment` or `extract_key_points` method, so the engine calls in
`VideoAnalyzer.analyze_sentiment` and `VideoAnalyzer.extract_key_points`
always raise `AttributeError`; the interpreter-produced message of that
exception is abstracted as an oracle string. Python truthiness of the
transcript (`not self.current_video_data`) is `True` for both a missing and
an empty transcript. -/

/-- Python `//` on nonnegative rationals followed by `int()`. -/
def qfloordiv (a b : ℚ) : ℤ := ⌊a / b⌋

/-- Python `%` on rationals (sign of the divisor, here positive). -/
def qmod (a b : ℚ) : ℚ := a - b * ((⌊a / b⌋ : ℤ) : ℚ)

/-- Python `f"{n:02d}"`: zero-pad a small nonnegative integer to width 2. -/
def pad2 (n : ℤ) : String :=
  if 0 ≤ n ∧ n < 10 then "0" ++ toString n else toString n

/-- Embedding of `format_timestamp` (analysis_utils.py lines 103-119). -/
def format_timestamp (seconds : ℚ) : String :=
  let hours : ℤ := qfloordiv seconds 3600
  let minutes : ℤ := qfloordiv (qmod seconds 3600) 60
  let secs : ℤ := ⌊qmod seconds 60⌋
  if 0 < hours then pad2 hours ++ ":" ++ pad2 minutes ++ ":" ++ pad2 secs
  else pad2 minutes ++ ":" ++ pad2 secs

/-- An entry of the analyzer's private `_cache`: the dict may hold
`transcript` and `metadata` keys. -/
structure AEntry (V : Type) where
  transcript : Option (List TranscriptSegment)
  metadata : Option V

/-- The mutable session state of a `VideoAnalyzer` instance. -/
structure AnalyzerState (V : Type) where
  current_video_data : Option (List TranscriptSegment)
  current_video_metadata : Option V
  cache : String → Option (AEntry V)

/-- External collaborators of the analyzer: `get_video_data` keyed on the
canonical video ID, the chat chain, and the interpreter-produced
`AttributeError` messages of the two engine methods `VideoInsightEngine`
does not define (`str(e)` of the exception raised at the attribute lookup). -/
structure AnOracle (V : Type) where
  videoDB : String → Option (V × List TranscriptSegment)
  chatFn : String → List V → V
  sentAttrMsg : String
  kpAttrMsg : String

/-- Effects of analyzer operations: a platform fetch for a URL or a
chat-chain invocation. -/
inductive AEff
  | fetch (url : String)
  | chat
deriving DecidableEq, Repr

/-- Python truthiness test `not x` for an optional list: true when the value
is absent or the list is empty. -/
def pyFalsyList {α : Type} (d : Option (List α)) : Bool :=
  match d with
  | none => true
  | some l => l.isEmpty

/-- The result dict of `VideoAnalyzer.get_transcript`. -/
structure GetTResult (V : Type) where
  transcript : Option (List TranscriptSegment)
  metadata : Option V

/-- The fetch path of `VideoAnalyzer.get_transcript`: canonicalize the URL,
call the platform, and on success set the session transcript and metadata
and merge the result into `_cache` under the raw URL. -/
def VA_get_transcript_fetch {V : Type} (o : AnOracle V) (st : AnalyzerState V)
    (url : String) :
    Except String (GetTResult V) × AnalyzerState V × List AEff :=
  match o.videoDB (extract_video_id url) with
  | none =>
    (Except.error
        ("Error fetching transcript: Could not fetch video data for URL: "
          ++ url),
      st, [AEff.fetch url])
  | some (m, t) =>
    (Except.ok { transcript := some t, metadata := some m },
      { current_video_data := some t
      , current_video_metadata := some m
      , cache := fun u =>
          if u = url then some { transcript := some t, metadata := some m }
          else st.cache u },
      [AEff.fetch url])

/-- Embedding of `VideoAnalyzer.get_transcript` (main.py lines 29-59): if
`_cache` holds a `transcript` key for the raw URL, return the cached entry
without fetching (and without touching the session fields); otherwise fetch. -/
def VA_get_transcript {V : Type} (o : AnOracle V) (st : AnalyzerState V)
    (url : String) :
    Except String (GetTResult V) × AnalyzerState V × List AEff :=
  match st.cache url with
  | some e =>
    if e.transcript.isSome then
      (Except.ok { transcript := e.transcript, metadata := e.metadata }, st, [])
    else VA_get_transcript_fetch o st url
  | none => VA_get_transcript_fetch o st url

/-- Embedding of `VideoAnalyzer.analyze_sentiment` (main.py lines 61-71):
fetch the transcript only if none is loaded, then evaluate
`self.insight_engine.analyze_sentiment(self.current_video_data)`.
`VideoInsightEngine` defines no `analyze_sentiment` method, so that call
always raises `AttributeError` before any engine work, and the wrapping
handler re-raises it as
`ValueError("Error analyzing sentiment: " + str(e))`; the session-state
changes made by a successful `get_transcript` persist. -/
def VA_analyze_sentiment {V : Type} (o : AnOracle V) (st : AnalyzerState V)
    (url : String) : Except String V × AnalyzerState V × List AEff :=
  if pyFalsyList st.current_video_data then
    match VA_get_transcript o st url with
    | (Except.ok _, st', ef) =>
      (Except.error ("Error analyzing sentiment: " ++ o.sentAttrMsg), st', ef)
    | (Except.error msg, st', ef) =>
      (Except.error ("Error analyzing sentiment: " ++ msg), st', ef)
  else
    (Except.error ("Error analyzing sentiment: " ++ o.sentAttrMsg), st, [])

/-- Embedding of `VideoAnalyzer.extract_key_points` (main.py lines 73-83),
with the same shape as `VA_analyze_sentiment`: `VideoInsightEngine` defines
no `extract_key_points` method either, so the engine call always raises and
is re-raised as `ValueError("Error extracting key points: " + str(e))`. -/
def VA_extract_key_points {V : Type} (o : AnOracle V) (st : AnalyzerState V)
    (url : String) : Except String (List String) × AnalyzerState V × List AEff :=
  if pyFalsyList st.current_video_data then
    match VA_get_transcript o st url with
    | (Except.ok _, st', ef) =>
      (Except.error ("Error extracting key points: " ++ o.kpAttrMsg), st', ef)
    | (Except.error msg, st', ef) =>
      (Except.error ("Error extracting key points: " ++ msg), st', ef)
  else
    (Except.error ("Error extracting key points: " ++ o.kpAttrMsg), st, [])

/-- The precondition-error message of the session operations. -/
def noVideoMsg : String :=
  "No video has been analyzed yet. Please analyze a video first."

/-- Embedding of `VideoAnalyzer.chat_with_video` (main.py lines 104-122):
raise the precondition error before any work when no transcript is loaded,
otherwise build the chat interface and invoke it. -/
def VA_chat_with_video {V : Type} (o : AnOracle V) (st : AnalyzerState V)
    (question : String) (history : Option (List V)) :
    Except String V × AnalyzerState V × List AEff :=
  if pyFalsyList st.current_video_data then
    (Except.error noVideoMsg, st, [])
  else
    (Except.ok (o.chatFn question (history.getD [])), st, [AEff.chat])

/-- The context dict returned by `VideoAnalyzer.get_segment_context`. -/
structure SegmentContext where
  timestamp : String
  context : String
  segments : List TranscriptSegment
deriving DecidableEq, Repr

/-- Embedding of `VideoAnalyzer.get_segment_context` (main.py lines
124-150): raise the precondition error when no transcript is loaded,
otherwise collect the segments whose start lies within the window around
the timestamp. -/
def VA_get_segment_context {V : Type} (st : AnalyzerState V) (timestamp : ℚ)
    (context_window : ℚ := 30) :
    Except String SegmentContext × AnalyzerState V × List AEff :=
  if pyFalsyList st.current_video_data then
    (Except.error noVideoMsg, st, [])
  else
    let transcript := st.current_video_data.getD []
    let relevant := transcript.filter (fun s =>
      decide (timestamp - context_window ≤ s.start)
        && decide (s.start ≤ timestamp + context_window))
    (Except.ok
        { timestamp := format_timestamp timestamp
        , context := String.intercalate " " (relevant.map (fun s => s.text))
        , segments := relevant },
      st, [])

/-- Claim C9: when no transcript has been loaded for the session, the chat
operation and the context-window lookup both fail with the precondition
error naming the missing prerequisite step, leave the state untouched, and
perform no external call or other work (empty effect list). -/
theorem no_video_precondition {V : Type} (o : AnOracle V)
    (st : AnalyzerState V) (question : String) (history : Option (List V))
    (timestamp window : ℚ)
    (h : pyFalsyList st.current_video_data = true) :
    VA_chat_with_video o st question history = (Except.error noVideoMsg, st, [])
    ∧ VA_get_segment_context st timestamp window =
        (Except.error noVideoMsg, st, [])
    ∧ pyContains noVideoMsg "analyze a video first" = true := by
  refine ⟨?_, ?_, by decide⟩
  · simp [VA_chat_with_video, h]
  · simp [VA_get_segment_context, h]

/-- A concrete analyzer oracle over `Nat` metadata values. -/
def oAn : AnOracle Nat :=
  { videoDB := fun _ => some (7, [{ text := "hi", start := 0, duration := 1 }])
  , chatFn := fun _ _ => 2
  , sentAttrMsg := "VideoInsightEngine object has no attribute analyze_sentiment"
  , kpAttrMsg := "VideoInsightEngine object has no attribute extract_key_points" }

/-- A session state with no transcript loaded and an empty cache. -/
def stFresh : AnalyzerState Nat :=
  { current_video_data := none, current_video_metadata := none
  , cache := fun _ => none }

/-- A session state in which video A's transcript is loaded. -/
def stLoaded : AnalyzerState Nat :=
  { current_video_data := some [{ text := "video A content", start := 0, duration := 2 }]
  , current_video_metadata := some 5
  , cache := fun _ => none }

/-- Witness for `no_video_precondition` on a concrete fresh session. -/
theorem no_video_precondition_witness :
    VA_chat_with_video oAn stFresh "what is it about" none =
      (Except.error noVideoMsg, stFresh, [])
    ∧ VA_get_segment_context stFresh 10 30 =
        (Except.error noVideoMsg, stFresh, []) :=
  ⟨(no_video_precondition oAn stFresh "what is it about" none 10 30 rfl).1,
   (no_video_precondition oAn stFresh "what is it about" none 10 30 rfl).2.1⟩

/-- Counterexample to claim C10 as stated: with video A's transcript loaded,
calling `analyze_sentiment` or `extract_key_points` with video B's
identifier does not return an analysis of the loaded transcript — because
`VideoInsightEngine` defines neither method, both operations raise the
wrapped attribute error instead of returning a result. -/
theorem session_aliasing_counterexample :
    VA_analyze_sentiment oAn stLoaded "https://www.youtube.com/watch?v=videoB" =
      (Except.error ("Error analyzing sentiment: " ++ oAn.sentAttrMsg),
        stLoaded, [])
    ∧ VA_extract_key_points oAn stLoaded
        "https://www.youtube.com/watch?v=videoB" =
      (Except.error ("Error extracting key points: " ++ oAn.kpAttrMsg),
        stLoaded, []) :=
  ⟨rfl, rfl⟩

/-- Claim C10 (amended): while a transcript is loaded in the session, the
sentiment and key-point operations trigger no fetch, leave the state
untouched, and behave independently of the URL argument; but since
`VideoInsightEngine` defines no `analyze_sentiment` or `extract_key_points`
method, the engine call always raises `AttributeError` and each operation
fails with the corresponding wrapped `ValueError` instead of returning an
analysis. A transcript fetch is triggered only when no transcript is
loaded. -/
theorem session_transcript_aliasing {V : Type} (o : AnOracle V)
    (st : AnalyzerState V) (urlA urlB : String)
    (h : pyFalsyList st.current_video_data = false) :
    VA_analyze_sentiment o st urlA =
      (Except.error ("Error analyzing sentiment: " ++ o.sentAttrMsg), st, [])
    ∧ VA_analyze_sentiment o st urlA = VA_analyze_sentiment o st urlB
    ∧ VA_extract_key_points o st urlA =
        (Except.error ("Error extracting key points: " ++ o.kpAttrMsg), st, [])
    ∧ VA_extract_key_points o st urlA = VA_extract_key_points o st urlB := by
  refine ⟨?_, ?_, ?_, ?_⟩ <;>
    simp [VA_analyze_sentiment, VA_extract_key_points, h]

/-- Witness for `session_transcript_aliasing`: with video A loaded, asking
for video B fails with the wrapped attribute error, with no fetch, and
agrees with asking for video A. -/
theorem session_transcript_aliasing_witness :
    VA_analyze_sentiment oAn stLoaded "https://www.youtube.com/watch?v=videoB" =
      (Except.error ("Error analyzing sentiment: " ++ oAn.sentAttrMsg),
        stLoaded, [])
    ∧ VA_analyze_sentiment oAn stLoaded "https://www.youtube.com/watch?v=videoB"
        = VA_analyze_sentiment oAn stLoaded "videoA" :=
  ⟨(session_transcript_aliasing oAn stLoaded
      "https://www.youtube.com/watch?v=videoB" "videoA" rfl).1,
   (session_transcript_aliasing oAn stLoaded
      "https://www.youtube.com/watch?v=videoB" "videoA" rfl).2.1⟩

theorem VA_get_transcript_loc {V : Type} (o : AnOracle V)
    (st : AnalyzerState V) (url u' : String) (h : url ≠ u') :
    ((VA_get_transcript o st url).2.1).cache u' = st.cache u' := by
  unfold VA_get_transcript VA_get_transcript_fetch
  cases hu : st.cache url with
  | some e =>
    cases ht : e.transcript with
    | some t => simp [ht]
    | none =>
      simp only [ht, Option.isSome_none, Bool.false_eq_true, if_false]
      cases o.videoDB (extract_video_id url) with
      | none => rfl
      | some p => simp [Ne.symm h]
  | none =>
    cases o.videoDB (extract_video_id url) with
    | none => rfl
    | some p => simp [Ne.symm h]

/-- Claim C7 (amended): the API endpoints key `analysis_cache`, and the
analyzer keys its private `_cache`, on the raw input identifier — an
operation for URL `u` never touches the entry of any other key `u'`, even
one denoting the same video — while `extract_video_id` does canonicalize
both identifier forms of a video to the same stable ID. An entry populated
under one form is therefore not found under the other. -/
theorem cache_key_raw :
    (∀ (V : Type) (o : ApiOracle V) (op : Op) (st : CacheSt V) (u' : String),
      opUrl op ≠ u' → applyOp o op st u' = st u')
    ∧ (∀ (V : Type) (o : AnOracle V) (st : AnalyzerState V) (url u' : String),
      url ≠ u' → ((VA_get_transcript o st url).2.1).cache u' = st.cache u')
    ∧ extract_video_id urlFull = urlBare
    ∧ extract_video_id urlBare = urlBare := by
  refine ⟨?_, ?_, by decide, by decide⟩
  · intro V o op st u' h
    exact op_loc o op st u' h
  · intro V o st url u' h
    exact VA_get_transcript_loc o st url u' h

/-- Witness for `cache_key_raw`: concrete operations for one URL leave the
entry of a different URL untouched in both caches. -/
theorem cache_key_raw_witness :
    applyOp oNat (Op.quick urlFull) emptyCache urlBare = emptyCache urlBare
    ∧ ((VA_get_transcript oAn stFresh urlFull).2.1).cache urlBare =
        stFresh.cache urlBare :=
  ⟨cache_key_raw.1 Nat oNat (Op.quick urlFull) emptyCache urlBare (by decide),
   cache_key_raw.2.1 Nat oAn stFresh urlFull urlBare (by decide)⟩

end YTA
